/-
Verification of the blackjack game engine in core/game/blackjack.go.

The Go code is shallowly embedded: Go slices become Lean lists, Go methods
that mutate the receiver and return an error become functions
Game → Option String × Game (the returned game is the state of the receiver
after the call, error or not, since some methods mutate before failing),
Go int and int64 become Int, and the Go string enums GamePhase and
GameResult become String constants so that the zero value "" of an
unsettled result is representable.  Go integer division truncates toward
zero, which is Int.tdiv.
-/
import Mathlib

namespace Casino

/-- A playing card: suit, rank and the blackjack value of the rank.
Mirrors `type Card struct { Suit, Rank string; Value int }`. -/
structure Card where
  suit : String
  rank : String
  value : Int
deriving DecidableEq, Repr

/-- `Deck.Draw`: take the front card of the deck, or fail when empty.
Mirrors lines 85-92 of blackjack.go. -/
def drawCard : List Card → Except String (Card × List Card)
  | [] => .error "deck is empty"
  | c :: rest => .ok (c, rest)

/-- The inner demotion loop of `Hand.Value`:
`for aces > 0 && value > 21 { value -= 10; aces-- }`. -/
def demoteAces : Int → Nat → Int
  | v, 0 => v
  | v, a + 1 => if v > 21 then demoteAces (v - 10) a else v

/-- The accumulation loop of `Hand.Value`: every card with rank "A" adds 11
(and counts as an ace), every other card adds its Value field. -/
def handBase (cards : List Card) : Int :=
  cards.foldl (fun acc c => acc + (if c.rank = "A" then 11 else c.value)) 0

/-- Number of cards of rank "A" in the hand. -/
def handAces (cards : List Card) : Nat :=
  (cards.filter (fun c => c.rank = "A")).length

/-- `Hand.Value`: sum the cards with aces at 11, then demote aces by 10
while the total exceeds 21.  Mirrors lines 103-122 of blackjack.go. -/
def handValue (cards : List Card) : Int :=
  demoteAces (handBase cards) (handAces cards)

/-- `Hand.IsBusted`: value strictly above 21. -/
def handIsBusted (cards : List Card) : Bool :=
  handValue cards > 21

/-- `Hand.IsBlackjack`: exactly two cards totalling 21. -/
def handIsBlackjack (cards : List Card) : Bool :=
  cards.length = 2 && handValue cards = 21

/-- Phase constant `WAITING_FOR_BET`. -/
def PhaseWaitingForBet : String := "WAITING_FOR_BET"

/-- Phase constant `PLAYER_TURN`. -/
def PhasePlayerTurn : String := "PLAYER_TURN"

/-- Phase constant `DEALER_TURN`. -/
def PhaseDealerTurn : String := "DEALER_TURN"

/-- Phase constant `GAME_OVER`. -/
def PhaseGameOver : String := "GAME_OVER"

/-- Result constant `PLAYER_WIN`. -/
def ResultPlayerWin : String := "PLAYER_WIN"

/-- Result constant `DEALER_WIN`. -/
def ResultDealerWin : String := "DEALER_WIN"

/-- Result constant `PUSH`. -/
def ResultPush : String := "PUSH"

/-- Result constant `PLAYER_BLACKJACK`. -/
def ResultPlayerBlackjack : String := "PLAYER_BLACKJACK"

/-- The Game aggregate of blackjack.go lines 42-51.  `result` is a Go
string whose zero value is "" until settlement. -/
structure Game where
  deck : List Card
  playerHand : List Card
  dealerHand : List Card
  phase : String
  bet : Int
  result : String
  isDoubled : Bool
  playerStood : Bool
deriving DecidableEq, Repr

/-- `NewGameWithDeck`: fresh game over a given deck, phase WAITING_FOR_BET,
empty hands, zero bet, unset ("") result. -/
def newGameWithDeck (cards : List Card) : Game :=
  { deck := cards
    playerHand := []
    dealerHand := []
    phase := PhaseWaitingForBet
    bet := 0
    result := ""
    isDoubled := false
    playerStood := false }

/-- `determineWinner` (lines 364-379): player bust → dealer wins; else
dealer bust → player wins; else higher value wins, equal is a push. -/
def determineWinner (g : Game) : Game :=
  if handIsBusted g.playerHand then
    { g with result := ResultDealerWin }
  else if handIsBusted g.dealerHand then
    { g with result := ResultPlayerWin }
  else if handValue g.playerHand > handValue g.dealerHand then
    { g with result := ResultPlayerWin }
  else if handValue g.dealerHand > handValue g.playerHand then
    { g with result := ResultDealerWin }
  else
    { g with result := ResultPush }

/-- The dealer draw loop of `playDealerTurn` (lines 349-358) on the raw
data: while the hand value is below 17, move the front card of the deck
onto the hand; returns the remaining deck, the final hand, and whether
the loop stopped because the deck ran out. -/
def dealerLoop : List Card → List Card → List Card × List Card × Bool
  | deck, hand =>
    if handValue hand < 17 then
      match deck with
      | [] => ([], hand, true)
      | c :: rest => dealerLoop rest (hand ++ [c])
    else
      (deck, hand, false)

/-- `playDealerTurn` (lines 347-362): draw while the dealer hand value is
below 17; a failed draw settles the round as a push; otherwise the phase
becomes GAME_OVER and the winner is determined. -/
def playDealerTurn (g : Game) : Game :=
  match dealerLoop g.deck g.dealerHand with
  | (d, h, true) =>
      { g with deck := d, dealerHand := h,
               phase := PhaseGameOver, result := ResultPush }
  | (d, h, false) =>
      determineWinner { g with deck := d, dealerHand := h, phase := PhaseGameOver }

/-- The opening-blackjack switch run after the four-card deal
(lines 205-220 and 262-277): both blackjack is a push, only the player a
player blackjack, only the dealer a dealer win, otherwise play begins. -/
def openingResolve (g : Game) : Game :=
  if handIsBlackjack g.playerHand && handIsBlackjack g.dealerHand then
    { g with phase := PhaseGameOver, result := ResultPush }
  else if handIsBlackjack g.playerHand then
    { g with phase := PhaseGameOver, result := ResultPlayerBlackjack }
  else if handIsBlackjack g.dealerHand then
    { g with phase := PhaseGameOver, result := ResultDealerWin }
  else
    { g with phase := PhasePlayerTurn }

/-- The opening four-card deal and blackjack resolution shared by
`PlaceBet` and `PlaceBetNoShuffle` (lines 180-222 and 237-279): deal
player, dealer, player, dealer, aborting on an empty deck with the state
as mutated so far, then resolve opening blackjacks. -/
def dealOpening (g : Game) : Option String × Game :=
  match drawCard g.deck with
  | .error e => (some ("failed to deal: " ++ e), g)
  | .ok (c1, d1) =>
    let g1 := { g with deck := d1, playerHand := g.playerHand ++ [c1] }
    match drawCard g1.deck with
    | .error e => (some ("failed to deal: " ++ e), g1)
    | .ok (c2, d2) =>
      let g2 := { g1 with deck := d2, dealerHand := g1.dealerHand ++ [c2] }
      match drawCard g2.deck with
      | .error e => (some ("failed to deal: " ++ e), g2)
      | .ok (c3, d3) =>
        let g3 := { g2 with deck := d3, playerHand := g2.playerHand ++ [c3] }
        match drawCard g3.deck with
        | .error e => (some ("failed to deal: " ++ e), g3)
        | .ok (c4, d4) =>
          let g4 := { g3 with deck := d4, dealerHand := g3.dealerHand ++ [c4] }
          (none, openingResolve g4)

/-- `PlaceBetNoShuffle` (lines 170-223): phase and amount preconditions,
then set the bet and run the opening deal on the deck as it stands. -/
def Game.placeBetNoShuffle (g : Game) (amount : Int) : Option String × Game :=
  if g.phase ≠ PhaseWaitingForBet then
    (some "cannot place bet in current phase", g)
  else if amount ≤ 0 then
    (some "bet must be positive", g)
  else
    dealOpening { g with bet := amount }

/-- `PlaceBet` (lines 226-280): identical to `PlaceBetNoShuffle` except
that the deck is shuffled after the precondition checks.  The shuffle is
seeded from the wall clock in Go; it is passed here as a parameter. -/
def Game.placeBet (shuffle : List Card → List Card) (g : Game) (amount : Int) :
    Option String × Game :=
  if g.phase ≠ PhaseWaitingForBet then
    (some "cannot place bet in current phase", g)
  else if amount ≤ 0 then
    (some "bet must be positive", g)
  else
    dealOpening { g with bet := amount, deck := shuffle g.deck }

/-- `Hit` (lines 283-301): in PLAYER_TURN, draw one card for the player;
a bust ends the round with a dealer win. -/
def Game.hit (g : Game) : Option String × Game :=
  if g.phase ≠ PhasePlayerTurn then
    (some "cannot hit in current phase", g)
  else
    match drawCard g.deck with
    | .error e => (some e, g)
    | .ok (c, d) =>
      let g1 := { g with deck := d, playerHand := g.playerHand ++ [c] }
      if handIsBusted g1.playerHand then
        (none, { g1 with phase := PhaseGameOver, result := ResultDealerWin })
      else
        (none, g1)

/-- `Stand` (lines 304-314): in PLAYER_TURN, mark the player as stood and
run the dealer turn. -/
def Game.stand (g : Game) : Option String × Game :=
  if g.phase ≠ PhasePlayerTurn then
    (some "cannot stand in current phase", g)
  else
    (none, playDealerTurn { g with playerStood := true, phase := PhaseDealerTurn })

/-- `DoubleDown` (lines 317-344): in PLAYER_TURN on a two-card hand,
double the bet and set the doubled flag, then draw one card; note the Go
code mutates Bet and IsDoubled before the draw, so a failed draw leaves
them changed. -/
def Game.doubleDown (g : Game) : Option String × Game :=
  if g.phase ≠ PhasePlayerTurn then
    (some "cannot double down in current phase", g)
  else if g.playerHand.length ≠ 2 then
    (some "can only double down on initial hand", g)
  else
    let gb := { g with bet := g.bet * 2, isDoubled := true }
    match drawCard gb.deck with
    | .error e => (some e, gb)
    | .ok (c, d) =>
      let g1 := { gb with deck := d, playerHand := gb.playerHand ++ [c] }
      if handIsBusted g1.playerHand then
        (none, { g1 with phase := PhaseGameOver, result := ResultDealerWin })
      else
        (none, playDealerTurn { g1 with phase := PhaseDealerTurn })

/-- `CalculatePayout` (lines 381-394): a switch on the result string;
blackjack pays the bet plus a truncated 3:2 bonus, a win pays double, a
push returns the bet, anything else pays nothing. -/
def Game.calculatePayout (g : Game) : Int :=
  if g.result = ResultPlayerBlackjack then g.bet + Int.tdiv (g.bet * 3) 2
  else if g.result = ResultPlayerWin then g.bet * 2
  else if g.result = ResultPush then g.bet
  else if g.result = ResultDealerWin then 0
  else 0

/-- `GetValidActions` (lines 442-455): empty outside PLAYER_TURN,
otherwise HIT and STAND, with DOUBLEDOWN appended on an undoubled
two-card hand. -/
def Game.getValidActions (g : Game) : List String :=
  if g.phase ≠ PhasePlayerTurn then []
  else if g.playerHand.length = 2 && !g.isDoubled then
    ["HIT", "STAND", "DOUBLEDOWN"]
  else
    ["HIT", "STAND"]

/-- Modelled from the spec: the `Surrender` game result.  The surrender
feature (the `Surrender` method, the `ResultSurrender` constant and the
surrender payout branch) is referenced by the integration tests and the
README of this repository but its definition is absent from the blackjack
source on hand, so it is modelled from the spec wording. -/
def ResultSurrender : String := "SURRENDER"

/-- Modelled from the spec: `surrender()` is legal in PLAYER_TURN only
when the player hand has exactly 2 cards (otherwise InvalidPhase or
NotInitialHand); it draws no card and settles the round immediately as a
`Surrender` result, moving the phase to GAME_OVER. -/
def Game.surrender (g : Game) : Option String × Game :=
  if g.phase ≠ PhasePlayerTurn then
    (some "cannot surrender in current phase", g)
  else if g.playerHand.length ≠ 2 then
    (some "can only surrender on initial hand", g)
  else
    (none, { g with phase := PhaseGameOver, result := ResultSurrender })

/-- Modelled from the spec: the payout table including the `Surrender`
case, which pays `bet / 2` with truncating integer division; the other
four cases are those of `CalculatePayout` in the source. -/
def Game.calculatePayoutFull (g : Game) : Int :=
  if g.result = ResultSurrender then Int.tdiv g.bet 2
  else g.calculatePayout


/-- From the spec: the achievable totals when each of `k` aces counts as
11 or 1 — demoting `i ≤ k` of them subtracts `10 * i` from the base, so
the candidates are `base, base - 10, …, base - 10 * k`
(see `mem_aceChoices`). -/
def aceChoices (base : Int) : Nat → List Int
  | 0 => [base]
  | k + 1 => base :: aceChoices (base - 10) k

/-- The candidate list contains exactly the totals reachable by demoting
some number `i ≤ k` of the aces. -/
lemma mem_aceChoices (k : Nat) (base x : Int) :
    x ∈ aceChoices base k ↔ ∃ i : Nat, i ≤ k ∧ x = base - 10 * (i : Int) := by
  induction k generalizing base with
  | zero =>
      simp only [aceChoices, List.mem_singleton]
      constructor
      · intro hx
        exact ⟨0, le_refl 0, by simp [hx]⟩
      · rintro ⟨i, hi, rfl⟩
        interval_cases i
        simp
  | succ k ih =>
      simp only [aceChoices, List.mem_cons, ih]
      constructor
      · rintro (rfl | ⟨i, hi, rfl⟩)
        · exact ⟨0, by omega, by simp⟩
        · exact ⟨i + 1, by omega, by push_cast; ring⟩
      · rintro ⟨i, hi, rfl⟩
        cases i with
        | zero => left; simp
        | succ j => right; exact ⟨j, by omega, by push_cast; ring⟩

/-- From the spec: the hand value is the maximum achievable total that is
at most 21; when every choice exceeds 21 the hand is busted and the value
is the fully demoted total. -/
def specHandValue (cards : List Card) : Int :=
  match (aceChoices (handBase cards) (handAces cards)).filter (fun v => v ≤ 21) with
  | [] => handBase cards - 10 * (handAces cards : Int)
  | v :: vs => vs.foldl max v

lemma aceChoices_le (k : Nat) (base : Int) :
    ∀ x ∈ aceChoices base k, x ≤ base := by
  intro x hx
  obtain ⟨i, _, rfl⟩ := (mem_aceChoices k base x).mp hx
  omega

lemma foldl_max_of_le (a : Int) (l : List Int) (h : ∀ x ∈ l, x ≤ a) :
    l.foldl max a = a := by
  induction l generalizing a with
  | nil => rfl
  | cons x xs ih =>
      simp only [List.foldl_cons]
      rw [max_eq_left (h x (by simp))]
      exact ih a fun y hy => h y (by simp [hy])

lemma demoteAces_eq_spec (k : Nat) (base : Int) :
    demoteAces base k =
      match (aceChoices base k).filter (fun v => v ≤ 21) with
      | [] => base - 10 * (k : Nat)
      | v :: vs => vs.foldl max v := by
  induction k generalizing base with
  | zero =>
      by_cases h : base ≤ 21
      · simp [demoteAces, aceChoices, List.filter_cons, h]
      · simp [demoteAces, aceChoices, List.filter_cons, h]
  | succ k ih =>
      simp only [demoteAces, aceChoices]
      by_cases h : base > 21
      · rw [if_pos h]
        rw [ih (base - 10)]
        have hf : (base :: aceChoices (base - 10) k).filter (fun v => v ≤ 21) =
            (aceChoices (base - 10) k).filter (fun v => v ≤ 21) := by
          rw [List.filter_cons]
          simp [show ¬ (base ≤ 21) by omega]
        rw [hf]
        cases hres : (aceChoices (base - 10) k).filter (fun v => v ≤ 21) with
        | nil =>
            show (base - 10) - 10 * (k : Nat) = base - 10 * ((k + 1 : Nat) : Int)
            push_cast
            ring
        | cons v vs => rfl
      · rw [if_neg h]
        have hf : (base :: aceChoices (base - 10) k).filter (fun v => v ≤ 21) =
            base :: (aceChoices (base - 10) k).filter (fun v => v ≤ 21) := by
          rw [List.filter_cons]
          simp [show base ≤ 21 by omega]
        rw [hf]
        show base = ((aceChoices (base - 10) k).filter (fun v => v ≤ 21)).foldl max base
        apply (foldl_max_of_le base _ ?_).symm
        intro x hx
        have := aceChoices_le k (base - 10) x (List.mem_of_mem_filter hx)
        omega

lemma handValue_eq_specHandValue (cards : List Card) :
    handValue cards = specHandValue cards := by
  rw [handValue, specHandValue, demoteAces_eq_spec]

lemma handBase_all_aces_aux (cards : List Card) (a : Int)
    (h : ∀ c ∈ cards, c.rank = "A") :
    cards.foldl (fun acc c => acc + (if c.rank = "A" then 11 else c.value)) a
      = a + 11 * cards.length := by
  induction cards generalizing a with
  | nil => simp
  | cons c cs ih =>
      simp only [List.foldl_cons]
      rw [if_pos (h c (by simp))]
      rw [ih (a + 11) (fun x hx => h x (by simp [hx]))]
      push_cast [List.length_cons]
      ring

lemma handBase_all_aces (cards : List Card) (h : ∀ c ∈ cards, c.rank = "A") :
    handBase cards = 11 * cards.length := by
  rw [handBase, handBase_all_aces_aux cards 0 h]
  ring

lemma handAces_all_aces (cards : List Card) (h : ∀ c ∈ cards, c.rank = "A") :
    handAces cards = cards.length := by
  rw [handAces, List.filter_eq_self.mpr]
  intro a ha
  simpa using h a ha

/-- C3: `Value()` equals the maximum total at most 21 achievable by
counting each ace as 11 or 1 (greedy demotion, possibly still busted when
every ace is demoted), and a hand of exactly k aces, 1 ≤ k ≤ 4, has value
11 + (k - 1). -/
theorem hand_value_ace_demotion :
    (∀ cards : List Card, handValue cards = specHandValue cards) ∧
    (∀ cards : List Card, (∀ c ∈ cards, c.rank = "A") →
      1 ≤ cards.length → cards.length ≤ 4 →
      handValue cards = 11 + ((cards.length : Int) - 1)) := by
  constructor
  · exact handValue_eq_specHandValue
  · intro cards hA h1 h4
    rw [handValue, handAces_all_aces cards hA, handBase_all_aces cards hA]
    set n := cards.length with hn
    interval_cases n <;> simp [demoteAces]

theorem hand_value_ace_demotion_witness :
    handValue [⟨"♠", "A", 11⟩, ⟨"♥", "A", 11⟩, ⟨"♦", "A", 11⟩] = 13 := by
  have h := hand_value_ace_demotion.2
    [⟨"♠", "A", 11⟩, ⟨"♥", "A", 11⟩, ⟨"♦", "A", 11⟩]
    (by decide) (by decide) (by decide)
  simpa using h


/-- Concrete cards used in witness games. -/
def cAS : Card := { suit := "♠", rank := "A", value := 11 }

/-- Five of spades. -/
def c5S : Card := { suit := "♠", rank := "5", value := 5 }

/-- Six of spades. -/
def c6S : Card := { suit := "♠", rank := "6", value := 6 }

/-- Ten of spades. -/
def cTS : Card := { suit := "♠", rank := "10", value := 10 }

/-- Ten of hearts. -/
def cTH : Card := { suit := "♥", rank := "10", value := 10 }

/-- Seven of hearts. -/
def c7H : Card := { suit := "♥", rank := "7", value := 7 }

/-- King of hearts. -/
def cKH : Card := { suit := "♥", rank := "K", value := 10 }

/-- Six of diamonds. -/
def c6D : Card := { suit := "♦", rank := "6", value := 6 }

/-- Ace of hearts. -/
def cAH : Card := { suit := "♥", rank := "A", value := 11 }

/-- A game sitting in PLAYER_TURN on the initial two-card hand, one card
left in the deck. -/
def gFirstAction : Game :=
  { deck := [c6D]
    playerHand := [c5S, cTS]
    dealerHand := [cTH, c7H]
    phase := PhasePlayerTurn
    bet := 1000
    result := ""
    isDoubled := false
    playerStood := false }

/-- A game in PLAYER_TURN on the initial hand with an exhausted deck. -/
def gEmptyDeck : Game :=
  { deck := []
    playerHand := [c5S, cTS]
    dealerHand := [cTH, cKH]
    phase := PhasePlayerTurn
    bet := 1000
    result := ""
    isDoubled := false
    playerStood := false }

/-- A settled game holding a player blackjack on an odd bet. -/
def gBlackjackOddBet : Game :=
  { deck := []
    playerHand := [cAS, cTS]
    dealerHand := [cTH, c7H]
    phase := PhaseGameOver
    bet := 1001
    result := ResultPlayerBlackjack
    isDoubled := false
    playerStood := false }

/-- The five-card deck on which bet 1000, double down and a dealer stand
on 17 produce a push at a doubled bet of 2000. -/
def deckDoubledPush : List Card := [c5S, cTH, c6S, c7H, c6D]

/-- C7: CalculatePayout is a pure function of Bet and Result following the
payout table (blackjack pays bet + bet*3/2 truncated, win pays bet*2, push
returns the bet, loss pays 0), and a push reached after DoubleDown pays
back the full doubled stake. -/
theorem payout_table (g : Game) :
    (g.result = ResultPlayerBlackjack →
      g.calculatePayout = g.bet + Int.tdiv (g.bet * 3) 2) ∧
    (g.result = ResultPlayerWin → g.calculatePayout = g.bet * 2) ∧
    (g.result = ResultPush → g.calculatePayout = g.bet) ∧
    (g.result = ResultDealerWin → g.calculatePayout = 0) ∧
    (∀ g2 : Game, g2.bet = g.bet → g2.result = g.result →
      g2.calculatePayout = g.calculatePayout) ∧
    (((newGameWithDeck deckDoubledPush).placeBetNoShuffle 1000).2.doubleDown.2.bet
        = 2000 ∧
     ((newGameWithDeck deckDoubledPush).placeBetNoShuffle 1000).2.doubleDown.2.result
        = ResultPush ∧
     ((newGameWithDeck deckDoubledPush).placeBetNoShuffle 1000).2.doubleDown.2.calculatePayout
        = 2000) := by
  refine ⟨?_, ?_, ?_, ?_, ?_, by decide⟩
  · intro h
    simp [Game.calculatePayout, h]
  · intro h
    simp [Game.calculatePayout, h, ResultPlayerWin, ResultPlayerBlackjack]
  · intro h
    simp [Game.calculatePayout, h, ResultPush, ResultPlayerWin, ResultPlayerBlackjack]
  · intro h
    simp [Game.calculatePayout, h, ResultDealerWin, ResultPush, ResultPlayerWin,
      ResultPlayerBlackjack]
  · intro g2 hb hr
    simp [Game.calculatePayout, hb, hr]

theorem payout_table_witness :
    gBlackjackOddBet.calculatePayout = 2502 := by
  have h := (payout_table gBlackjackOddBet).1 rfl
  simpa using h

lemma calculatePayout_of_blank (g : Game) (h : g.result = "") :
    g.calculatePayout = 0 := by
  simp [Game.calculatePayout, h, ResultPlayerBlackjack, ResultPlayerWin,
    ResultPush, ResultDealerWin]

lemma dealOpening_deck0 (g : Game) (h : g.deck = []) :
    dealOpening g = (some "failed to deal: deck is empty", g) := by
  unfold dealOpening
  rw [h]
  simp [drawCard]

lemma dealOpening_deck1 (g : Game) (c1 : Card) (h : g.deck = [c1]) :
    dealOpening g = (some "failed to deal: deck is empty",
      { g with deck := [], playerHand := g.playerHand ++ [c1] }) := by
  unfold dealOpening
  rw [h]
  simp [drawCard]

lemma dealOpening_deck2 (g : Game) (c1 c2 : Card) (h : g.deck = [c1, c2]) :
    dealOpening g = (some "failed to deal: deck is empty",
      { g with deck := [], playerHand := g.playerHand ++ [c1],
               dealerHand := g.dealerHand ++ [c2] }) := by
  unfold dealOpening
  rw [h]
  simp [drawCard]

lemma dealOpening_deck3 (g : Game) (c1 c2 c3 : Card) (h : g.deck = [c1, c2, c3]) :
    dealOpening g = (some "failed to deal: deck is empty",
      { g with deck := [], playerHand := g.playerHand ++ [c1, c3],
               dealerHand := g.dealerHand ++ [c2] }) := by
  unfold dealOpening
  rw [h]
  simp [drawCard]

lemma dealOpening_deck4 (g : Game) (c1 c2 c3 c4 : Card) (rest : List Card)
    (h : g.deck = c1 :: c2 :: c3 :: c4 :: rest) :
    dealOpening g = (none, openingResolve
      { g with deck := rest,
               playerHand := g.playerHand ++ [c1, c3],
               dealerHand := g.dealerHand ++ [c2, c4] }) := by
  unfold dealOpening
  rw [h]
  simp [drawCard]

/-- C10: CalculatePayout is total and reads only Bet and Result: any
result string outside the four named ones — in particular the zero value
"" of an unsettled game — pays 0, so querying the payout before GAME_OVER
yields 0. -/
theorem payout_default_zero :
    (∀ g : Game, g.result ≠ ResultPlayerBlackjack → g.result ≠ ResultPlayerWin →
      g.result ≠ ResultPush → g.result ≠ ResultDealerWin → g.calculatePayout = 0) ∧
    (∀ g1 g2 : Game, g1.bet = g2.bet → g1.result = g2.result →
      g1.calculatePayout = g2.calculatePayout) ∧
    (∀ cards : List Card, (newGameWithDeck cards).calculatePayout = 0) ∧
    (∀ g : Game, ∀ amount : Int, g.result = "" →
      (g.placeBetNoShuffle amount).2.phase ≠ PhaseGameOver →
      (g.placeBetNoShuffle amount).2.calculatePayout = 0) := by
  refine ⟨?_, ?_, ?_, ?_⟩
  · intro g h1 h2 h3 h4
    simp [Game.calculatePayout, h1, h2, h3, h4]
  · intro g1 g2 hb hr
    simp [Game.calculatePayout, hb, hr]
  · intro cards
    exact calculatePayout_of_blank _ rfl
  · intro g amount h0 hph
    unfold Game.placeBetNoShuffle at hph ⊢
    by_cases h1 : g.phase ≠ PhaseWaitingForBet
    · rw [if_pos h1] at hph ⊢
      exact calculatePayout_of_blank _ h0
    · rw [if_neg h1] at hph ⊢
      by_cases h2 : amount ≤ 0
      · rw [if_pos h2] at hph ⊢
        exact calculatePayout_of_blank _ h0
      · rw [if_neg h2] at hph ⊢
        rcases hd : g.deck with _ | ⟨c1, _ | ⟨c2, _ | ⟨c3, _ | ⟨c4, rest⟩⟩⟩⟩
        · simp only [dealOpening, drawCard, hd] at hph ⊢
          exact calculatePayout_of_blank _ (by simp [h0])
        · simp only [dealOpening, drawCard, hd] at hph ⊢
          exact calculatePayout_of_blank _ (by simp [h0])
        · simp only [dealOpening, drawCard, hd] at hph ⊢
          exact calculatePayout_of_blank _ (by simp [h0])
        · simp only [dealOpening, drawCard, hd] at hph ⊢
          exact calculatePayout_of_blank _ (by simp [h0])
        · simp only [dealOpening, drawCard, hd] at hph ⊢
          unfold openingResolve at hph ⊢
          split_ifs at hph ⊢ with hbj1 hbj2 hbj3
          · simp at hph
          · simp at hph
          · simp at hph
          · exact calculatePayout_of_blank _ (by simp [h0])

theorem payout_default_zero_witness :
    gFirstAction.calculatePayout = 0 := by
  have h := payout_default_zero.1 gFirstAction
    (by decide) (by decide) (by decide) (by decide)
  simpa using h

/-- C8: in PLAYER_TURN on an undoubled two-card hand the source offers
exactly HIT, STAND and DOUBLEDOWN — SURRENDER is never offered by
`GetValidActions`, although the README and the integration tests document
a surrender action under the same two-card precondition. -/
theorem valid_actions_omit_surrender :
    (∀ g : Game, g.getValidActions.contains "SURRENDER" = false) ∧
    gFirstAction.phase = PhasePlayerTurn ∧
    gFirstAction.playerHand.length = 2 ∧
    gFirstAction.isDoubled = false ∧
    gFirstAction.getValidActions = ["HIT", "STAND", "DOUBLEDOWN"] := by
  refine ⟨?_, rfl, rfl, rfl, by decide⟩
  intro g
  unfold Game.getValidActions
  split
  · rfl
  · split <;> rfl

/-- C1 (surrender modelled from the spec): `surrender()` is legal only in
PLAYER_TURN with exactly 2 player cards, draws no card, settles the round
immediately as Surrender moving the phase to GAME_OVER, and the Surrender
payout is bet / 2 with truncating integer division. -/
theorem surrender_rules (g : Game) :
    (g.phase = PhasePlayerTurn → g.playerHand.length = 2 →
      g.surrender = (none,
        { g with phase := PhaseGameOver, result := ResultSurrender }) ∧
      (g.surrender).2.deck = g.deck ∧
      (g.surrender).2.playerHand = g.playerHand ∧
      (g.surrender).2.dealerHand = g.dealerHand ∧
      (g.surrender).2.calculatePayoutFull = Int.tdiv g.bet 2) ∧
    ((g.phase ≠ PhasePlayerTurn ∨ g.playerHand.length ≠ 2) →
      (g.surrender).1.isSome = true ∧ (g.surrender).2 = g) := by
  constructor
  · intro hph hlen
    have hs : g.surrender = (none,
        { g with phase := PhaseGameOver, result := ResultSurrender }) := by
      unfold Game.surrender
      rw [if_neg (by simp [hph]), if_neg (by simp [hlen])]
    refine ⟨hs, by rw [hs], by rw [hs], by rw [hs], ?_⟩
    rw [hs]
    simp [Game.calculatePayoutFull, ResultSurrender]
  · intro hpre
    unfold Game.surrender
    rcases hpre with hph | hlen
    · rw [if_pos hph]
      exact ⟨rfl, rfl⟩
    · by_cases hph : g.phase ≠ PhasePlayerTurn
      · rw [if_pos hph]
        exact ⟨rfl, rfl⟩
      · rw [if_neg hph, if_pos hlen]
        exact ⟨rfl, rfl⟩

theorem surrender_rules_witness :
    (({ gFirstAction with bet := 2500 } : Game).surrender).2.calculatePayoutFull
        = 1250 ∧
    (({ gFirstAction with bet := 2500 } : Game).surrender).2.phase
        = PhaseGameOver := by
  have h := (surrender_rules { gFirstAction with bet := 2500 }).1 rfl rfl
  refine ⟨?_, ?_⟩
  · rw [h.2.2.2.2]
    decide
  · rw [h.1]



lemma determineWinner_fields (g : Game) :
    (determineWinner g).deck = g.deck ∧
    (determineWinner g).playerHand = g.playerHand ∧
    (determineWinner g).dealerHand = g.dealerHand ∧
    (determineWinner g).bet = g.bet ∧
    (determineWinner g).phase = g.phase := by
  unfold determineWinner
  split_ifs <;> exact ⟨rfl, rfl, rfl, rfl, rfl⟩

/-- C2 counterexample: DoubleDown on a two-card hand with an exhausted
deck returns an error yet leaves the bet doubled and the doubled flag
set, so a failed DoubleDown does not leave Bet and IsDoubled unchanged. -/
theorem doubleDown_failure_mutates_bet :
    (gEmptyDeck.doubleDown).1.isSome = true ∧
    gEmptyDeck.bet = 1000 ∧
    (gEmptyDeck.doubleDown).2.bet = 2000 ∧
    (gEmptyDeck.doubleDown).2.isDoubled = true := by
  decide

/-- C2 amended: Hit and Stand restore nothing because they mutate nothing
before any failure — on error the game is exactly as before; DoubleDown on
error leaves phase, result, hands and deck unchanged, but when the failure
came from the draw (rather than a precondition) the bet has already been
doubled and the doubled flag set. -/
theorem actions_atomic_on_failure (g : Game) :
    (∀ e g1, g.hit = (some e, g1) → g1 = g) ∧
    (∀ e g1, g.stand = (some e, g1) → g1 = g) ∧
    (∀ e g1, g.doubleDown = (some e, g1) →
      g1.phase = g.phase ∧ g1.result = g.result ∧
      g1.playerHand = g.playerHand ∧ g1.dealerHand = g.dealerHand ∧
      g1.deck = g.deck ∧
      (g1 = g ∨ (g1.bet = g.bet * 2 ∧ g1.isDoubled = true))) := by
  refine ⟨?_, ?_, ?_⟩
  · intro e g1 h
    unfold Game.hit at h
    split at h
    · injection h with h1 h2
      exact h2.symm
    · rcases hd : g.deck with _ | ⟨c, rest⟩
      · simp only [drawCard, hd] at h
        injection h with h1 h2
        exact h2.symm
      · simp only [drawCard, hd] at h
        split at h <;> simp at h
  · intro e g1 h
    unfold Game.stand at h
    split at h
    · injection h with h1 h2
      exact h2.symm
    · simp at h
  · intro e g1 h
    unfold Game.doubleDown at h
    split at h
    · injection h with h1 h2
      subst h2
      exact ⟨rfl, rfl, rfl, rfl, rfl, Or.inl rfl⟩
    · split at h
      · injection h with h1 h2
        subst h2
        exact ⟨rfl, rfl, rfl, rfl, rfl, Or.inl rfl⟩
      · rcases hd : g.deck with _ | ⟨c, rest⟩
        · simp only [drawCard, hd] at h
          injection h with h1 h2
          subst h2
          exact ⟨rfl, rfl, rfl, rfl, rfl, Or.inr ⟨rfl, rfl⟩⟩
        · simp only [drawCard, hd] at h
          split at h <;> simp at h

theorem actions_atomic_on_failure_witness :
    (gEmptyDeck.doubleDown).2.playerHand = gEmptyDeck.playerHand ∧
    (gEmptyDeck.doubleDown).2.phase = gEmptyDeck.phase := by
  have h := (actions_atomic_on_failure gEmptyDeck).2.2 "deck is empty"
    (gEmptyDeck.doubleDown).2 (by decide)
  exact ⟨h.2.2.1, h.1⟩

/-- A game whose dealer holds soft 17 (ace plus six) in DEALER_TURN. -/
def gSoft17 : Game :=
  { deck := [cTS]
    playerHand := [cTH, c7H]
    dealerHand := [cAH, c6D]
    phase := PhaseDealerTurn
    bet := 500
    result := ""
    isDoubled := false
    playerStood := true }

/-- C5: dealer auto-play draws exactly one card per iteration while the
dealer value is below 17, stands on every 17 or more (soft 17 included,
drawing no card), settles a failed draw on an exhausted deck as a push,
and always ends with the phase GAME_OVER. -/
theorem dealer_autoplay (g : Game) :
    (17 ≤ handValue g.dealerHand →
      playDealerTurn g = determineWinner { g with phase := PhaseGameOver } ∧
      (playDealerTurn g).dealerHand = g.dealerHand ∧
      (playDealerTurn g).deck = g.deck) ∧
    (handValue g.dealerHand < 17 → g.deck = [] →
      playDealerTurn g = { g with phase := PhaseGameOver, result := ResultPush }) ∧
    (∀ c rest, handValue g.dealerHand < 17 → g.deck = c :: rest →
      playDealerTurn g =
        playDealerTurn { g with deck := rest, dealerHand := g.dealerHand ++ [c] }) ∧
    (playDealerTurn g).phase = PhaseGameOver ∧
    handValue [cAH, c6D] = 17 := by
  refine ⟨?_, ?_, ?_, ?_, by decide⟩
  · intro hv
    have hloop : dealerLoop g.deck g.dealerHand = (g.deck, g.dealerHand, false) := by
      unfold dealerLoop
      rw [if_neg (by omega)]
    have hpd : playDealerTurn g = determineWinner { g with phase := PhaseGameOver } := by
      unfold playDealerTurn
      rw [hloop]
    refine ⟨hpd, ?_, ?_⟩
    · rw [hpd]
      exact (determineWinner_fields _).2.2.1
    · rw [hpd]
      exact (determineWinner_fields _).1
  · intro hv hdeck
    unfold playDealerTurn
    rw [hdeck]
    unfold dealerLoop
    rw [if_pos hv]
  · intro c rest hv hdeck
    unfold playDealerTurn
    rw [hdeck]
    conv_lhs => rw [dealerLoop]
    rw [if_pos hv]
  · rcases hres : dealerLoop g.deck g.dealerHand with ⟨d, hand, ex⟩
    unfold playDealerTurn
    rw [hres]
    cases ex
    · simpa using (determineWinner_fields _).2.2.2.2
    · rfl

theorem dealer_autoplay_witness :
    (playDealerTurn gSoft17).dealerHand = gSoft17.dealerHand ∧
    (playDealerTurn gSoft17).deck = gSoft17.deck := by
  have h := (dealer_autoplay gSoft17).1 (by decide)
  exact ⟨h.2.1, h.2.2⟩

/-- A game where the player reaches 21 with three cards against a dealer
standing on 17. -/
def gTwentyOneIn3 : Game :=
  { deck := []
    playerHand := [c5S, c6S, cTS]
    dealerHand := [cTH, c7H]
    phase := PhaseGameOver
    bet := 1000
    result := ""
    isDoubled := false
    playerStood := true }

/-- C6: winner determination checks, in order: busted player loses to the
dealer; else a busted dealer loses; else the strictly higher value wins
and equal values push; a 21 made of more than two cards is never
blackjack, so it settles as PlayerWin paying bet*2 (even money), not the
3:2 blackjack payout. -/
theorem winner_determination (g : Game) :
    (handIsBusted g.playerHand = true →
      (determineWinner g).result = ResultDealerWin) ∧
    (handIsBusted g.playerHand = false → handIsBusted g.dealerHand = true →
      (determineWinner g).result = ResultPlayerWin) ∧
    (handIsBusted g.playerHand = false → handIsBusted g.dealerHand = false →
      (handValue g.playerHand > handValue g.dealerHand →
        (determineWinner g).result = ResultPlayerWin) ∧
      (handValue g.dealerHand > handValue g.playerHand →
        (determineWinner g).result = ResultDealerWin) ∧
      (handValue g.playerHand = handValue g.dealerHand →
        (determineWinner g).result = ResultPush)) ∧
    (∀ cards : List Card, cards.length ≠ 2 → handIsBlackjack cards = false) ∧
    (2 < g.playerHand.length → handValue g.playerHand = 21 →
      handValue g.dealerHand < 21 →
      handIsBlackjack g.playerHand = false ∧
      (determineWinner g).result = ResultPlayerWin ∧
      (determineWinner g).calculatePayout = g.bet * 2) := by
  refine ⟨?_, ?_, ?_, ?_, ?_⟩
  · intro hb
    unfold determineWinner
    rw [if_pos hb]
  · intro hpb hdb
    unfold determineWinner
    rw [if_neg (by simp [hpb]), if_pos hdb]
  · intro hpb hdb
    refine ⟨?_, ?_, ?_⟩
    · intro hgt
      unfold determineWinner
      rw [if_neg (by simp [hpb]), if_neg (by simp [hdb]), if_pos hgt]
    · intro hgt
      unfold determineWinner
      rw [if_neg (by simp [hpb]), if_neg (by simp [hdb]),
          if_neg (by omega), if_pos hgt]
    · intro heq
      unfold determineWinner
      rw [if_neg (by simp [hpb]), if_neg (by simp [hdb]),
          if_neg (by omega), if_neg (by omega)]
  · intro cards hlen
    simp [handIsBlackjack, hlen]
  · intro hlen hp21 hdlt
    have hpb : handIsBusted g.playerHand = false := by
      simp [handIsBusted]
      omega
    have hdb : handIsBusted g.dealerHand = false := by
      simp [handIsBusted]
      omega
    have hres : (determineWinner g).result = ResultPlayerWin := by
      unfold determineWinner
      rw [if_neg (by simp [hpb]), if_neg (by simp [hdb]), if_pos (by omega)]
    refine ⟨by simp [handIsBlackjack]; omega, hres, ?_⟩
    have hbet : (determineWinner g).bet = g.bet := (determineWinner_fields g).2.2.2.1
    simp [Game.calculatePayout, hres, hbet, ResultPlayerWin, ResultPlayerBlackjack]

theorem winner_determination_witness :
    (determineWinner gTwentyOneIn3).result = ResultPlayerWin ∧
    (determineWinner gTwentyOneIn3).calculatePayout = 2000 := by
  have h := (winner_determination gTwentyOneIn3).2.2.2.2
    (by decide) (by decide) (by decide)
  exact ⟨h.2.1, h.2.2⟩



lemma openingResolve_fields (g : Game) :
    (openingResolve g).deck = g.deck ∧
    (openingResolve g).playerHand = g.playerHand ∧
    (openingResolve g).dealerHand = g.dealerHand ∧
    (openingResolve g).bet = g.bet := by
  unfold openingResolve
  split_ifs <;> exact ⟨rfl, rfl, rfl, rfl⟩

lemma openingResolve_phase_result (g : Game) :
    if handIsBlackjack g.playerHand && handIsBlackjack g.dealerHand then
      (openingResolve g).phase = PhaseGameOver ∧
      (openingResolve g).result = ResultPush
    else if handIsBlackjack g.playerHand then
      (openingResolve g).phase = PhaseGameOver ∧
      (openingResolve g).result = ResultPlayerBlackjack
    else if handIsBlackjack g.dealerHand then
      (openingResolve g).phase = PhaseGameOver ∧
      (openingResolve g).result = ResultDealerWin
    else
      (openingResolve g).phase = PhasePlayerTurn ∧
      (openingResolve g).result = g.result := by
  unfold openingResolve
  split_ifs <;> exact ⟨rfl, rfl⟩

/-- C4: PlaceBetNoShuffle succeeds only from WAITING_FOR_BET with a
positive amount — precondition failures error and leave the game exactly
as it was; a deck of fewer than 4 cards makes the deal fail with the bet
already set, the hands only extended, and the phase still
WAITING_FOR_BET (so PLAYER_TURN is never reached); a full deck deals
player, dealer, player, dealer and then resolves opening blackjacks:
both → Push, player only → PlayerBlackjack, dealer only → DealerWin,
otherwise the phase becomes PLAYER_TURN. -/
theorem place_bet_opening (g : Game) (amount : Int) :
    ((g.phase ≠ PhaseWaitingForBet ∨ amount ≤ 0) →
      (g.placeBetNoShuffle amount).1.isSome = true ∧
      (g.placeBetNoShuffle amount).2 = g) ∧
    (g.phase = PhaseWaitingForBet → 0 < amount → g.deck.length < 4 →
      (g.placeBetNoShuffle amount).1 = some "failed to deal: deck is empty" ∧
      (g.placeBetNoShuffle amount).2.bet = amount ∧
      (g.placeBetNoShuffle amount).2.phase = PhaseWaitingForBet ∧
      g.playerHand <+: (g.placeBetNoShuffle amount).2.playerHand ∧
      g.dealerHand <+: (g.placeBetNoShuffle amount).2.dealerHand) ∧
    (∀ c1 c2 c3 c4 rest, g.phase = PhaseWaitingForBet → 0 < amount →
      g.deck = c1 :: c2 :: c3 :: c4 :: rest →
      (g.placeBetNoShuffle amount).1 = none ∧
      (g.placeBetNoShuffle amount).2.playerHand = g.playerHand ++ [c1, c3] ∧
      (g.placeBetNoShuffle amount).2.dealerHand = g.dealerHand ++ [c2, c4] ∧
      (g.placeBetNoShuffle amount).2.deck = rest ∧
      (g.placeBetNoShuffle amount).2.bet = amount ∧
      (if handIsBlackjack (g.playerHand ++ [c1, c3]) &&
          handIsBlackjack (g.dealerHand ++ [c2, c4]) then
        (g.placeBetNoShuffle amount).2.phase = PhaseGameOver ∧
        (g.placeBetNoShuffle amount).2.result = ResultPush
      else if handIsBlackjack (g.playerHand ++ [c1, c3]) then
        (g.placeBetNoShuffle amount).2.phase = PhaseGameOver ∧
        (g.placeBetNoShuffle amount).2.result = ResultPlayerBlackjack
      else if handIsBlackjack (g.dealerHand ++ [c2, c4]) then
        (g.placeBetNoShuffle amount).2.phase = PhaseGameOver ∧
        (g.placeBetNoShuffle amount).2.result = ResultDealerWin
      else
        (g.placeBetNoShuffle amount).2.phase = PhasePlayerTurn ∧
        (g.placeBetNoShuffle amount).2.result = g.result)) := by
  refine ⟨?_, ?_, ?_⟩
  · intro hpre
    unfold Game.placeBetNoShuffle
    by_cases hph : g.phase ≠ PhaseWaitingForBet
    · rw [if_pos hph]
      exact ⟨rfl, rfl⟩
    · rcases hpre with hpre | hpre
      · exact absurd hpre hph
      · rw [if_neg hph, if_pos hpre]
        exact ⟨rfl, rfl⟩
  · intro hph ham hlen
    unfold Game.placeBetNoShuffle
    rw [if_neg (by simp [hph]), if_neg (by omega)]
    rcases hd : g.deck with _ | ⟨c1, _ | ⟨c2, _ | ⟨c3, _ | ⟨c4, rest⟩⟩⟩⟩
    · rw [dealOpening_deck0 _ (by simp [hd])]
      exact ⟨rfl, rfl, hph, List.prefix_rfl, List.prefix_rfl⟩
    · rw [dealOpening_deck1 _ c1 (by simp [hd])]
      exact ⟨rfl, rfl, hph, List.prefix_append _ _, List.prefix_rfl⟩
    · rw [dealOpening_deck2 _ c1 c2 (by simp [hd])]
      exact ⟨rfl, rfl, hph, List.prefix_append _ _, List.prefix_append _ _⟩
    · rw [dealOpening_deck3 _ c1 c2 c3 (by simp [hd])]
      exact ⟨rfl, rfl, hph, List.prefix_append _ _, List.prefix_append _ _⟩
    · rw [hd] at hlen
      simp at hlen
      omega
  · intro c1 c2 c3 c4 rest hph ham hd
    unfold Game.placeBetNoShuffle
    rw [if_neg (by simp [hph]), if_neg (by omega),
        dealOpening_deck4 _ c1 c2 c3 c4 rest (by simpa using hd)]
    refine ⟨rfl, ?_, ?_, ?_, ?_, ?_⟩
    · simpa using (openingResolve_fields _).2.1
    · simpa using (openingResolve_fields _).2.2.1
    · simpa using (openingResolve_fields _).1
    · simpa using (openingResolve_fields _).2.2.2
    · simpa using openingResolve_phase_result
        { g with bet := amount, deck := rest,
                 playerHand := g.playerHand ++ [c1, c3],
                 dealerHand := g.dealerHand ++ [c2, c4] }

theorem place_bet_opening_witness :
    ((newGameWithDeck deckDoubledPush).placeBetNoShuffle 1000).1 = none ∧
    ((newGameWithDeck deckDoubledPush).placeBetNoShuffle 1000).2.playerHand
      = [c5S, c6S] ∧
    ((newGameWithDeck deckDoubledPush).placeBetNoShuffle 1000).2.dealerHand
      = [cTH, c7H] := by
  have h := (place_bet_opening (newGameWithDeck deckDoubledPush) 1000).2.2
    c5S cTH c6S c7H [c6D] rfl (by norm_num) rfl
  exact ⟨h.1, by simpa using h.2.1, by simpa using h.2.2.1⟩



/-- The combined multiset of cards held by the deck, the player hand and
the dealer hand of a game. -/
def gameCards (g : Game) : Multiset Card :=
  (g.deck : Multiset Card) + (g.playerHand : Multiset Card) +
    (g.dealerHand : Multiset Card)

lemma dealerLoop_conserves (deck hand : List Card) :
    ((dealerLoop deck hand).1 : Multiset Card) + ((dealerLoop deck hand).2.1 : Multiset Card)
      = (deck : Multiset Card) + (hand : Multiset Card) := by
  induction deck generalizing hand with
  | nil =>
      unfold dealerLoop
      split <;> simp
  | cons c rest ih =>
      unfold dealerLoop
      split
      · rw [ih (hand ++ [c])]
        simp only [← Multiset.cons_coe, ← Multiset.singleton_add,
          ← Multiset.coe_add, Multiset.coe_nil, add_zero, zero_add]
        abel
      · simp

lemma gameCards_playDealerTurn (g : Game) :
    gameCards (playDealerTurn g) = gameCards g := by
  unfold playDealerTurn
  rcases hres : dealerLoop g.deck g.dealerHand with ⟨d, hand, ex⟩
  have hc := dealerLoop_conserves g.deck g.dealerHand
  rw [hres] at hc
  simp only at hc
  cases ex
  · unfold gameCards
    rw [(determineWinner_fields _).1, (determineWinner_fields _).2.1,
        (determineWinner_fields _).2.2.1]
    simp only
    rw [add_right_comm, hc, add_right_comm]
  · unfold gameCards
    simp only
    rw [add_right_comm, hc, add_right_comm]

lemma gameCards_hit (g : Game) : gameCards (g.hit).2 = gameCards g := by
  unfold Game.hit
  split
  · rfl
  · rcases hd : g.deck with _ | ⟨c, rest⟩
    · simp [drawCard]
    · simp only [drawCard]
      split
      · unfold gameCards
        simp only [hd]
        simp only [← Multiset.cons_coe, ← Multiset.singleton_add,
          ← Multiset.coe_add, Multiset.coe_nil, add_zero, zero_add]
        abel
      · unfold gameCards
        simp only [hd]
        simp only [← Multiset.cons_coe, ← Multiset.singleton_add,
          ← Multiset.coe_add, Multiset.coe_nil, add_zero, zero_add]
        abel

lemma gameCards_stand (g : Game) : gameCards (g.stand).2 = gameCards g := by
  unfold Game.stand
  split
  · rfl
  · simp only
    rw [gameCards_playDealerTurn]
    rfl

lemma gameCards_doubleDown (g : Game) :
    gameCards (g.doubleDown).2 = gameCards g := by
  unfold Game.doubleDown
  split
  · rfl
  · split
    · rfl
    · rcases hd : g.deck with _ | ⟨c, rest⟩
      · simp [drawCard, gameCards, hd]
      · simp only [drawCard, hd]
        split
        · unfold gameCards
          simp only [hd]
          simp only [← Multiset.cons_coe, ← Multiset.singleton_add,
            ← Multiset.coe_add, Multiset.coe_nil, add_zero, zero_add]
          abel
        · rw [gameCards_playDealerTurn]
          unfold gameCards
          simp only [hd]
          simp only [← Multiset.cons_coe, ← Multiset.singleton_add,
            ← Multiset.coe_add, Multiset.coe_nil, add_zero, zero_add]
          abel

lemma gameCards_dealOpening (g : Game) :
    gameCards (dealOpening g).2 = gameCards g := by
  rcases hd : g.deck with _ | ⟨c1, _ | ⟨c2, _ | ⟨c3, _ | ⟨c4, rest⟩⟩⟩⟩
  · rw [dealOpening_deck0 _ hd]
  · rw [dealOpening_deck1 _ c1 hd]
    unfold gameCards
    simp only [hd]
    simp only [← Multiset.cons_coe, ← Multiset.singleton_add,
      ← Multiset.coe_add, Multiset.coe_nil, add_zero, zero_add]
    abel
  · rw [dealOpening_deck2 _ c1 c2 hd]
    unfold gameCards
    simp only [hd]
    simp only [← Multiset.cons_coe, ← Multiset.singleton_add,
      ← Multiset.coe_add, Multiset.coe_nil, add_zero, zero_add]
    abel
  · rw [dealOpening_deck3 _ c1 c2 c3 hd]
    unfold gameCards
    simp only [hd]
    simp only [← Multiset.cons_coe, ← Multiset.singleton_add,
      ← Multiset.coe_add, Multiset.coe_nil, add_zero, zero_add]
    abel
  · rw [dealOpening_deck4 _ c1 c2 c3 c4 rest hd]
    unfold gameCards
    rw [(openingResolve_fields _).1, (openingResolve_fields _).2.1,
        (openingResolve_fields _).2.2.1]
    simp only [hd]
    simp only [← Multiset.cons_coe, ← Multiset.singleton_add,
      ← Multiset.coe_add, Multiset.coe_nil, add_zero, zero_add]
    abel

/-- C9: every game operation — the opening deal (even when it aborts
mid-deal), Hit, Stand, DoubleDown and the dealer auto-play — preserves the
combined multiset of cards in the deck, the player hand and the dealer
hand: cards move only from the front of the deck onto a hand. -/
theorem card_conservation (g : Game) (amount : Int) :
    gameCards (g.placeBetNoShuffle amount).2 = gameCards g ∧
    gameCards (g.hit).2 = gameCards g ∧
    gameCards (g.stand).2 = gameCards g ∧
    gameCards (g.doubleDown).2 = gameCards g ∧
    gameCards (playDealerTurn g) = gameCards g := by
  refine ⟨?_, gameCards_hit g, gameCards_stand g, gameCards_doubleDown g,
    gameCards_playDealerTurn g⟩
  unfold Game.placeBetNoShuffle
  split
  · rfl
  · split
    · rfl
    · rw [show gameCards g = gameCards { g with bet := amount } from rfl]
      exact gameCards_dealOpening { g with bet := amount }


end Casino
